import Mathlib

/-!
# Verification of the gemini-agent wrapper core

A shallow embedding of the file-diffing CLI-execution wrapper of the
gemini-agent repository (src/gemini_agent), together with theorems that
settle the frozen claims about its specification.

The embedding follows the source:
* src/gemini_agent/core/models.py : ApprovalMode, OutputFormat, AgentConfig,
  AgentResult (with AgentResult.from_error);
* src/gemini_agent/core/agent.py : GeminiAgent._execute (file seeding with
  the path-traversal guard, command building, subprocess invocation with
  timeout handling, stdout parsing, and the post-execution diff walk);
* src/gemini_agent/server/worker.py : the Celery task run_gemini_task with
  max_retries = 2 and default_retry_delay = 30;
* src/gemini_agent/server/routes/tasks.py : the prompt/context composition
  in create_task;
* src/gemini_agent/server/models.py : TaskStatus.

External collaborators are abstracted as parameters or small models:
the external gemini binary is a ProcOutcome value plus a filesystem
transformer, Python's json.loads / json.dumps are function parameters,
the POSIX filesystem is an association list from absolute path segments to
file contents, and pathlib path resolution is the lexical normalization
performed by Path.resolve on non-symlinked paths.
-/

set_option autoImplicit false

namespace GeminiAgent

/-! ## Strings and paths

Python string and pathlib operations used by agent.py, modelled on the
character lists underlying Lean strings so that everything reduces in the
kernel. -/

/-- Python str.startswith: the second string is a prefix of the first. -/
def strStartsWith (s pre : String) : Bool :=
  pre.data.isPrefixOf s.data

/-- Split a string into its slash-separated segments, like the segment view
of a POSIX pathlib.PurePath (auxiliary, on character lists). -/
def splitSegsAux : List Char → List String
  | [] => [""]
  | c :: rest =>
    match splitSegsAux rest with
    | [] => [""]
    | s :: ss => if c = '/' then "" :: s :: ss else String.mk (c :: s.data) :: ss

/-- Split a string into its slash-separated segments. -/
def splitSegs (s : String) : List String :=
  splitSegsAux s.data

/-- Join path segments with slashes (inverse of splitSegs). -/
def joinSegs : List String → String
  | [] => ""
  | [s] => s
  | s :: rest => s ++ "/" ++ joinSegs rest

/-- The string rendering of an absolute path given by its segments, as
produced by str() on a resolved POSIX pathlib.Path. -/
def pathStr (segs : List String) : String :=
  "/" ++ joinSegs segs

/-- Lexical normalization of path segments against a base: empty and dot
segments vanish, a dot-dot segment removes the last base segment (and is a
no-op at the filesystem root), everything else is appended.  This is what
Path.resolve does to a non-symlinked path. -/
def normSegs : List String → List String → List String
  | acc, [] => acc
  | acc, seg :: rest =>
    if seg = "" ∨ seg = "." then normSegs acc rest
    else if seg = ".." then normSegs acc.dropLast rest
    else normSegs (acc ++ [seg]) rest

/-- (work_path / filename).resolve() for a resolved work_path given by its
absolute segments: an absolute filename discards the base (pathlib), and
the joined path is normalized lexically. -/
def resolvePath (root : List String) (filename : String) : List String :=
  if strStartsWith filename "/" then normSegs [] (splitSegs filename)
  else normSegs root (splitSegs filename)

/-- One segment list is a prefix of another (path containment: the first
path is the second or an ancestor directory of it). -/
def segsPrefixOf : List String → List String → Bool
  | [], _ => true
  | _ :: _, [] => false
  | a :: as, b :: bs => if a = b then segsPrefixOf as bs else false

/-! ## Dictionaries

Python dict operations used by _execute, as association lists in insertion
order: assignment replaces in place or appends, lookup finds the unique
entry. -/

/-- Python dict lookup (d.get(k) / k in d). -/
def dictLookup {α β : Type} [DecidableEq α] : List (α × β) → α → Option β
  | [], _ => none
  | (k, v) :: rest, a => if k = a then some v else dictLookup rest a

/-- Python dict assignment d[k] = v: replace the entry in place if the key
is present, otherwise append it. -/
def dictInsert {α β : Type} [DecidableEq α] (l : List (α × β)) (k : α) (v : β) : List (α × β) :=
  if (dictLookup l k).isSome then
    l.map fun kv => if kv.1 = k then (k, v) else kv
  else l ++ [(k, v)]

/-! ## Data model (core/models.py) -/

/-- ApprovalMode from core/models.py. -/
inductive ApprovalMode where
  | default
  | auto_edit
  | yolo
deriving DecidableEq, Repr

/-- The .value string of an ApprovalMode member. -/
def ApprovalMode.value : ApprovalMode → String
  | .default => "default"
  | .auto_edit => "auto_edit"
  | .yolo => "yolo"

/-- OutputFormat from core/models.py. -/
inductive OutputFormat where
  | text
  | json
  | stream_json
deriving DecidableEq, Repr

/-- The .value string of an OutputFormat member. -/
def OutputFormat.value : OutputFormat → String
  | .text => "text"
  | .json => "json"
  | .stream_json => "stream-json"

/-- AgentConfig from core/models.py (timeout in seconds). -/
structure AgentConfig where
  api_key : String := ""
  model : String := ""
  timeout : Nat := 300
  approval_mode : ApprovalMode := ApprovalMode.yolo
  sandbox : Bool := false
  output_format : OutputFormat := OutputFormat.json
deriving DecidableEq, Repr

/-- A JSON value, the shape of the parsed response dictionaries that
json.loads produces and that _execute builds for the raw-output fallback. -/
inductive Json where
  | null
  | bool (b : Bool)
  | num (n : Int)
  | str (s : String)
  | arr (elems : List Json)
  | obj (fields : List (String × Json))

/-- AgentResult from core/models.py. -/
structure AgentResult where
  success : Bool
  response : Option Json := none
  modified_files : List (String × String) := []
  stdout : String := ""
  stderr : String := ""
  return_code : Int := 0
  error : Option String := none

/-- AgentResult.from_error from core/models.py. -/
def AgentResult.fromError (error : String) : AgentResult :=
  { success := false, error := some error, return_code := -1 }

/-! ## Filesystem model

The workspace filesystem is an association list from absolute paths (as
segment lists) to file contents.  A file is either valid UTF-8 text or
binary data that read_text(encoding="utf-8") fails to decode. -/

/-- Content of a regular file: decodable text or undecodable binary. -/
inductive FileContent where
  | text (s : String)
  | binary
deriving DecidableEq, Repr

/-- A filesystem: the regular files, keyed by absolute path segments. -/
abbrev Fs := List (List String × FileContent)

/-- Some strict prefix of the target path is an existing regular file, so
that file_path.parent.mkdir(parents=True, exist_ok=True) raises. -/
def existsAncestorFile (fs : Fs) (fp : List String) : Bool :=
  fs.any fun qc => segsPrefixOf qc.1 fp && decide (qc.1 ≠ fp)

/-- The target path is a directory (the workspace root, one of its
ancestors, or a strict ancestor of an existing file), so that
file_path.write_text raises. -/
def isDirTarget (root : List String) (fs : Fs) (fp : List String) : Bool :=
  segsPrefixOf fp root || fs.any fun qc => segsPrefixOf fp qc.1 && decide (qc.1 ≠ fp)

/-- The filesystem effect and error behaviour of
file_path.parent.mkdir(parents=True, exist_ok=True) followed by
file_path.write_text(content, encoding="utf-8"): the OS errors these calls
can raise are modelled by their exception names. -/
def writeText (root : List String) (fs : Fs) (fp : List String) (content : String) :
    Except String Fs :=
  if existsAncestorFile fs fp then Except.error "FileExistsError"
  else if isDirTarget root fs fp then Except.error "IsADirectoryError"
  else Except.ok (dictInsert fs fp (FileContent.text content))

/-! ## Workspace seeding (agent.py lines 152-162)

The loop over files.items() in _execute: resolve each filename against the
working directory, skip (with a warning) any whose resolved string does not
start with the resolved working directory string, write the rest and record
them in the initial_files snapshot.  An OS error while writing is not
caught anywhere in _execute and aborts the run. -/

/-- The seeding loop of _execute, over the remaining (filename, content)
items, the filesystem, and the initial_files snapshot accumulated so far. -/
def seedLoop (root : List String) :
    List (String × String) → Fs → List (String × String) →
    Except String (Fs × List (String × String))
  | [], fs, initialFiles => Except.ok (fs, initialFiles)
  | (filename, content) :: rest, fs, initialFiles =>
    let fp := resolvePath root filename
    if strStartsWith (pathStr fp) (pathStr root) then
      match writeText root fs fp content with
      | Except.error e => Except.error e
      | Except.ok fs' =>
        seedLoop root rest fs' (dictInsert initialFiles filename content)
    else
      seedLoop root rest fs initialFiles

/-- Seed the caller-supplied files into the workspace, returning the
resulting filesystem and the initial_files snapshot. -/
def seedFiles (root : List String) (files : List (String × String)) (fs : Fs) :
    Except String (Fs × List (String × String)) :=
  seedLoop root files fs []

/-! ## Command building (agent.py lines 164-196) -/

/-- The argument list _execute builds for the gemini binary, translated
clause by clause from agent.py.  Python truthiness tests on strings, lists
and the optional resume token become the corresponding emptiness tests. -/
def buildCommand (config : AgentConfig) (prompt : String)
    (mcp_servers allowed_tools extensions include_directories : List String)
    (resume_session : Option String) : List String :=
  let command := ["gemini", "--output-format", config.output_format.value]
  let command := if config.model ≠ "" then command ++ ["--model", config.model] else command
  let command :=
    if config.approval_mode = ApprovalMode.yolo then command ++ ["-y"]
    else if config.approval_mode = ApprovalMode.default ∨
        config.approval_mode = ApprovalMode.auto_edit then
      command ++ ["--approval-mode", config.approval_mode.value]
    else command
  let command := if config.sandbox then command ++ ["--sandbox"] else command
  let command :=
    if mcp_servers ≠ [] then command ++ ["--allowed-mcp-server-names"] ++ mcp_servers
    else command
  let command :=
    if allowed_tools ≠ [] then command ++ ["--allowed-tools"] ++ allowed_tools else command
  let command :=
    if extensions ≠ [] then command ++ ["--extensions"] ++ extensions else command
  let command :=
    if include_directories ≠ [] then
      command ++ (include_directories.map fun d => ["--include-directories", d]).flatten
    else command
  let command :=
    match resume_session with
    | some r => if r ≠ "" then command ++ ["--resume", r] else command
    | none => command
  command ++ [prompt]

/-- The argument-list shape stated by the specification: the binary name,
then the output-format pair, the model pair when the model is non-empty,
the single no-confirmation flag for YOLO or an explicit approval-mode pair
otherwise, the sandbox flag when set, one flag followed by all values for
each non-empty list of MCP servers, allowed tools and extensions, a
separate include-directories pair per directory, a resume pair for a
present (non-empty) token, and the prompt as the final positional
argument. -/
def commandSpec (config : AgentConfig) (prompt : String)
    (mcp_servers allowed_tools extensions include_directories : List String)
    (resume_session : Option String) : List String :=
  ["gemini"]
    ++ ["--output-format", config.output_format.value]
    ++ (if config.model ≠ "" then ["--model", config.model] else [])
    ++ (match config.approval_mode with
        | ApprovalMode.yolo => ["-y"]
        | m => ["--approval-mode", m.value])
    ++ (if config.sandbox then ["--sandbox"] else [])
    ++ (if mcp_servers ≠ [] then "--allowed-mcp-server-names" :: mcp_servers else [])
    ++ (if allowed_tools ≠ [] then "--allowed-tools" :: allowed_tools else [])
    ++ (if extensions ≠ [] then "--extensions" :: extensions else [])
    ++ (include_directories.map fun d => ["--include-directories", d]).flatten
    ++ (match resume_session with
        | some r => ["--resume", r]
        | none => [])
    ++ [prompt]

/-! ## Stdout parsing (agent.py lines 218-226) -/

/-- The response _execute derives from the captured stdout: nothing for
empty stdout; for the JSON output format, the json.loads parse of stdout
when it succeeds and the raw-output wrapper when it fails; the raw-output
wrapper for every other format.  json.loads is an external collaborator
and enters as the jsonLoads parameter. -/
def parseResponse (fmt : OutputFormat) (jsonLoads : String → Option Json) (stdout : String) :
    Option Json :=
  if stdout ≠ "" then
    if fmt = OutputFormat.json then
      match jsonLoads stdout with
      | some v => some v
      | none => some (Json.obj [("raw_output", Json.str stdout)])
    else some (Json.obj [("raw_output", Json.str stdout)])
  else none

/-! ## Post-execution diff walk (agent.py lines 228-241) -/

/-- The relative path string of a walked file with respect to the
workspace root: defined exactly when the file lies strictly under the
root (work_path.rglob("*") yields only such paths), and then equal to
str(file_path.relative_to(work_path)). -/
def relOf (root p : List String) : Option String :=
  if segsPrefixOf root p && decide (root.length < p.length) then
    some (joinSegs (p.drop root.length))
  else none

/-- The body of the diff loop for one visited regular file with relative
path string relStr: skip it if relStr starts with a dot, skip it if its
content fails text decoding, report it if relStr is absent from the
initial_files snapshot or present with different content, and omit it
otherwise. -/
def classifyRel (initialFiles : List (String × String)) (relStr : String) (c : FileContent) :
    Option (String × String) :=
  if strStartsWith relStr "." then none
  else
    match c with
    | FileContent.binary => none
    | FileContent.text content =>
      match dictLookup initialFiles relStr with
      | none => some (relStr, content)
      | some old => if old ≠ content then some (relStr, content) else none

/-- The body of the diff loop for one visited regular file: compute its
relative path string and classify it. -/
def classifyFile (root : List String) (initialFiles : List (String × String))
    (p : List String) (c : FileContent) : Option (String × String) :=
  match relOf root p with
  | none => none
  | some relStr => classifyRel initialFiles relStr c

/-- The diff loop over the remaining walked files, accumulating the
modified_files dictionary. -/
def diffLoop (root : List String) (initialFiles : List (String × String)) :
    Fs → List (String × String) → List (String × String)
  | [], acc => acc
  | (p, c) :: rest, acc =>
    match classifyFile root initialFiles p c with
    | some kv => diffLoop root initialFiles rest (dictInsert acc kv.1 kv.2)
    | none => diffLoop root initialFiles rest acc

/-- The modified_files mapping _execute computes after the external
process has run: every regular file strictly under the workspace root is
visited and classified against the initial_files snapshot. -/
def computeDiff (root : List String) (fs : Fs) (initialFiles : List (String × String)) :
    List (String × String) :=
  diffLoop root initialFiles fs []

/-! ## Process invocation and outcome assembly (agent.py lines 204-250) -/

/-- The observable outcome of the subprocess.run call on the external
gemini binary: normal completion with exit code, stdout and stderr;
subprocess.TimeoutExpired; or any other invocation failure with the
exception message. -/
inductive ProcOutcome where
  | completed (returncode : Int) (stdout stderr : String)
  | timedOut
  | failed (message : String)

/-- _execute, from the seeding loop to the returned AgentResult.  The
external process is abstracted by its ProcOutcome and by the transformer
ext it applies to the seeded workspace filesystem; json.loads enters as
jsonLoads.  The Except layer records the exceptions that _execute does not
catch: an OS error raised while seeding propagates to the caller of run,
while a timeout or invocation failure of the subprocess is caught and
converted into an error outcome. -/
def executeE (config : AgentConfig) (root : List String)
    (files : List (String × String)) (fs0 : Fs)
    (jsonLoads : String → Option Json) (proc : ProcOutcome) (ext : Fs → Fs) :
    Except String AgentResult :=
  match seedFiles root files fs0 with
  | Except.error e => Except.error e
  | Except.ok (fs1, initialFiles) =>
    match proc with
    | ProcOutcome.timedOut =>
      Except.ok (AgentResult.fromError
        ("Command timed out after " ++ toString config.timeout ++ " seconds"))
    | ProcOutcome.failed msg => Except.ok (AgentResult.fromError msg)
    | ProcOutcome.completed rc out err =>
      Except.ok
        { success := rc == 0
          response := parseResponse config.output_format jsonLoads out
          modified_files := computeDiff root (ext fs1) initialFiles
          stdout := out
          stderr := err
          return_code := rc
          error := none }

/-! ## Service mode (server/worker.py, server/routes/tasks.py,
server/models.py) -/

/-- TaskStatus from server/models.py. -/
inductive TaskStatus where
  | pending
  | started
  | success
  | failure
  | retry
  | revoked
deriving DecidableEq, Repr

/-- max_retries of the run_gemini_task Celery task (worker.py line 40). -/
def maxRetries : Nat := 2

/-- default_retry_delay of the run_gemini_task Celery task (worker.py
line 40), in seconds. -/
def defaultRetryDelay : Nat := 30

/-- The dictionary run_gemini_task returns: the AgentResult fields of a
completed run, or the failure payload built when retries are exhausted. -/
structure TaskPayload where
  success : Bool
  error : Option String := none
  response : Option Json := none
  modified_files : List (String × String) := []
  stdout : String := ""
  stderr : String := ""
  return_code : Int := 0

/-- The failure dictionary of the except-MaxRetriesExceededError handler
in run_gemini_task (worker.py lines 111-120).  The handler is dead code:
self.retry(exc=e) re-raises e itself once the retry counter reaches
max_retries (Celery raises MaxRetriesExceededError only when retry is
called without exc), so the handler never fires for the exceptions the
task body raises. -/
def failurePayload (e : String) : TaskPayload :=
  { success := false, error := some e, return_code := -1 }

/-- One execution of the run_gemini_task body ends in a normal return of
the payload (the task completes), in self.retry scheduling a re-execution
after the default delay, or in the exception propagating out of the task
body.  retries is the Celery retry counter of this execution; per
Celery's documented Task.retry semantics, retry(exc=e) raises Retry while
the counter is below max_retries and re-raises e itself once the counter
has reached it, so the except-MaxRetriesExceededError handler is skipped
and e escapes the task body. -/
inductive TaskStep where
  | completedStep (p : TaskPayload)
  | retryScheduled (delay : Nat)
  | raisedStep (e : String)

/-- One invocation of run_gemini_task, given the outcome of its try block:
a computed payload, or the message of the exception it raised. -/
def runGeminiTaskStep (retries : Nat) (body : Except String TaskPayload) : TaskStep :=
  match body with
  | Except.ok p => TaskStep.completedStep p
  | Except.error e =>
    if retries < maxRetries then TaskStep.retryScheduled defaultRetryDelay
    else TaskStep.raisedStep e

/-- Modelled from Celery's documented task protocol (Celery is an external
collaborator): execution k of a task runs with retry counter k, a
retryScheduled step re-enqueues the task, and the first completedStep or
raisedStep ends the job.  Returns the index of the final execution and
its result — the returned payload, or the error that escaped the task
body; the fuel argument bounds the remaining executions. -/
def runJobFrom (attempts : Nat → Except String TaskPayload) :
    Nat → Nat → Option (Nat × Except String TaskPayload)
  | 0, _ => none
  | fuel + 1, k =>
    match runGeminiTaskStep k (attempts k) with
    | TaskStep.completedStep p => some (k, Except.ok p)
    | TaskStep.raisedStep e => some (k, Except.error e)
    | TaskStep.retryScheduled _ => runJobFrom attempts fuel (k + 1)

/-- A whole service-mode job: at most 1 + maxRetries executions of
run_gemini_task. -/
def runJob (attempts : Nat → Except String TaskPayload) :
    Option (Nat × Except String TaskPayload) :=
  runJobFrom attempts (maxRetries + 1) 0

/-- Modelled from Celery's documented task protocol: a task that returns
normally is recorded SUCCESS; a task whose final execution raises is
recorded FAILURE with the exception as its stored result, absorbed at the
worker boundary without crashing the worker process.  A job that runs out
of fuel without reaching a terminal step is still pending; this case is
unreachable for run_gemini_task's step function. -/
def jobFinalStatus (attempts : Nat → Except String TaskPayload) : TaskStatus :=
  match runJob attempts with
  | some (_, Except.ok _) => TaskStatus.success
  | some (_, Except.error _) => TaskStatus.failure
  | none => TaskStatus.pending

/-- The prompt composition of create_task (server/routes/tasks.py lines
24-27): a truthy context mapping appends a separator and its json.dumps
serialization to the submitted prompt.  json.dumps is an external
collaborator and enters as the jsonDumps parameter. -/
def buildFullPrompt (prompt : String) (context : Option (List (String × Json)))
    (jsonDumps : List (String × Json) → String) : String :=
  match context with
  | some ctx =>
    if ctx.isEmpty then prompt
    else prompt ++ "\n\n---\n\nContext:\n" ++ jsonDumps ctx
  | none => prompt

/-! ## Dictionary lemmas -/

theorem dictLookup_nil {α β : Type} [DecidableEq α] (a : α) :
    dictLookup ([] : List (α × β)) a = none := rfl

theorem dictLookup_cons {α β : Type} [DecidableEq α] (k : α) (v : β) (rest : List (α × β))
    (a : α) : dictLookup ((k, v) :: rest) a = if k = a then some v else dictLookup rest a := rfl

theorem dictLookup_append_right {α β : Type} [DecidableEq α] (l m : List (α × β)) (a : α)
    (h : dictLookup l a = none) : dictLookup (l ++ m) a = dictLookup m a := by
  induction l with
  | nil => rfl
  | cons kv rest ih =>
    obtain ⟨k, v⟩ := kv
    rw [dictLookup_cons] at h
    by_cases hk : k = a
    · rw [if_pos hk] at h; cases h
    · rw [if_neg hk] at h
      rw [List.cons_append, dictLookup_cons, if_neg hk]
      exact ih h

theorem dictLookup_map_replace_self {α β : Type} [DecidableEq α]
    (l : List (α × β)) (k : α) (v : β) (h : (dictLookup l k).isSome = true) :
    dictLookup (l.map fun kv => if kv.1 = k then (k, v) else kv) k = some v := by
  induction l with
  | nil => cases h
  | cons kv rest ih =>
    obtain ⟨k₀, v₀⟩ := kv
    rw [dictLookup_cons] at h
    by_cases hk : k₀ = k
    · show dictLookup ((if k₀ = k then (k, v) else (k₀, v₀)) :: _) k = some v
      rw [if_pos hk, dictLookup_cons, if_pos rfl]
    · rw [if_neg hk] at h
      show dictLookup ((if k₀ = k then (k, v) else (k₀, v₀)) :: _) k = some v
      rw [if_neg hk, dictLookup_cons, if_neg hk]
      exact ih h

theorem dictLookup_map_replace_ne {α β : Type} [DecidableEq α]
    (l : List (α × β)) (k k' : α) (v : β) (h : k' ≠ k) :
    dictLookup (l.map fun kv => if kv.1 = k then (k, v) else kv) k' = dictLookup l k' := by
  induction l with
  | nil => rfl
  | cons kv rest ih =>
    obtain ⟨k₀, v₀⟩ := kv
    by_cases hk : k₀ = k
    · show dictLookup ((if k₀ = k then (k, v) else (k₀, v₀)) :: _) k' = _
      rw [if_pos hk, dictLookup_cons, if_neg (Ne.symm h), dictLookup_cons,
        if_neg (fun (e : k₀ = k') => h (e ▸ hk))]
      exact ih
    · show dictLookup ((if k₀ = k then (k, v) else (k₀, v₀)) :: _) k' = _
      rw [if_neg hk, dictLookup_cons, dictLookup_cons]
      by_cases hk' : k₀ = k'
      · rw [if_pos hk', if_pos hk']
      · rw [if_neg hk', if_neg hk']
        exact ih

theorem dictLookup_dictInsert_self {α β : Type} [DecidableEq α]
    (l : List (α × β)) (k : α) (v : β) :
    dictLookup (dictInsert l k v) k = some v := by
  unfold dictInsert
  by_cases h : (dictLookup l k).isSome = true
  · rw [if_pos h]
    exact dictLookup_map_replace_self l k v h
  · have hnone : dictLookup l k = none := by
      cases hl : dictLookup l k
      · rfl
      · rw [hl] at h; cases h rfl
    rw [if_neg h, dictLookup_append_right _ _ _ hnone, dictLookup_cons, if_pos rfl]

theorem dictLookup_append_single_ne {α β : Type} [DecidableEq α]
    (l : List (α × β)) (k k' : α) (v : β) (h : k' ≠ k) :
    dictLookup (l ++ [(k, v)]) k' = dictLookup l k' := by
  induction l with
  | nil => rw [List.nil_append, dictLookup_cons, if_neg (Ne.symm h)]
  | cons kv rest ih =>
    obtain ⟨k₀, v₀⟩ := kv
    rw [List.cons_append, dictLookup_cons, dictLookup_cons]
    by_cases hk : k₀ = k'
    · rw [if_pos hk, if_pos hk]
    · rw [if_neg hk, if_neg hk]
      exact ih

theorem dictLookup_dictInsert_ne {α β : Type} [DecidableEq α]
    (l : List (α × β)) (k k' : α) (v : β) (h : k' ≠ k) :
    dictLookup (dictInsert l k v) k' = dictLookup l k' := by
  unfold dictInsert
  by_cases hs : (dictLookup l k).isSome = true
  · rw [if_pos hs]
    exact dictLookup_map_replace_ne l k k' v h
  · rw [if_neg hs]
    exact dictLookup_append_single_ne l k k' v h

/-! ## Classification lemmas -/

theorem classifyFile_of_relOf_none (root : List String) (init : List (String × String))
    (p : List String) (c : FileContent) (hrel : relOf root p = none) :
    classifyFile root init p c = none := by
  unfold classifyFile; rw [hrel]

theorem classifyFile_of_relOf_some (root : List String) (init : List (String × String))
    (p : List String) (c : FileContent) (relStr : String) (hrel : relOf root p = some relStr) :
    classifyFile root init p c = classifyRel init relStr c := by
  unfold classifyFile; rw [hrel]

theorem classifyRel_of_hidden (init : List (String × String)) (relStr : String)
    (c : FileContent) (hh : strStartsWith relStr "." = true) :
    classifyRel init relStr c = none := by
  unfold classifyRel; rw [if_pos hh]

theorem classifyRel_binary (init : List (String × String)) (relStr : String)
    (hh : strStartsWith relStr "." = false) :
    classifyRel init relStr FileContent.binary = none := by
  unfold classifyRel; rw [if_neg (by rw [hh]; exact Bool.false_ne_true)]

theorem classifyRel_text (init : List (String × String)) (relStr content : String)
    (hh : strStartsWith relStr "." = false) :
    classifyRel init relStr (FileContent.text content) =
      match dictLookup init relStr with
      | none => some (relStr, content)
      | some old => if old ≠ content then some (relStr, content) else none := by
  unfold classifyRel; rw [if_neg (by rw [hh]; exact Bool.false_ne_true)]

theorem classifyRel_text_absent (init : List (String × String)) (relStr content : String)
    (hh : strStartsWith relStr "." = false) (hinit : dictLookup init relStr = none) :
    classifyRel init relStr (FileContent.text content) = some (relStr, content) := by
  rw [classifyRel_text init relStr content hh, hinit]

theorem classifyRel_text_present (init : List (String × String)) (relStr content old : String)
    (hh : strStartsWith relStr "." = false) (hinit : dictLookup init relStr = some old) :
    classifyRel init relStr (FileContent.text content) =
      if old ≠ content then some (relStr, content) else none := by
  rw [classifyRel_text init relStr content hh, hinit]

theorem classifyFile_eq_some (root : List String) (init : List (String × String))
    (p : List String) (c : FileContent) (k v : String)
    (h : classifyFile root init p c = some (k, v)) :
    relOf root p = some k ∧ strStartsWith k "." = false ∧ c = FileContent.text v ∧
      dictLookup init k ≠ some v := by
  cases hrel : relOf root p with
  | none => rw [classifyFile_of_relOf_none root init p c hrel] at h; cases h
  | some relStr =>
    rw [classifyFile_of_relOf_some root init p c relStr hrel] at h
    cases hh : strStartsWith relStr "." with
    | true => rw [classifyRel_of_hidden init relStr c hh] at h; cases h
    | false =>
      cases c with
      | binary => rw [classifyRel_binary init relStr hh] at h; cases h
      | text content =>
        cases hinit : dictLookup init relStr with
        | none =>
          rw [classifyRel_text_absent init relStr content hh hinit] at h
          obtain ⟨hk, hv⟩ := Prod.mk.inj (Option.some.inj h)
          subst hk; subst hv
          exact ⟨rfl, hh, rfl, by rw [hinit]; exact fun e => by cases e⟩
        | some old =>
          rw [classifyRel_text_present init relStr content old hh hinit] at h
          by_cases hne : old ≠ content
          · rw [if_pos hne] at h
            obtain ⟨hk, hv⟩ := Prod.mk.inj (Option.some.inj h)
            subst hk; subst hv
            exact ⟨rfl, hh, rfl, by
              rw [hinit]
              exact fun e => hne (Option.some.inj e)⟩
          · rw [if_neg hne] at h; cases h

theorem classifyFile_intro (root : List String) (init : List (String × String))
    (p : List String) (k v : String)
    (hrel : relOf root p = some k) (hh : strStartsWith k "." = false)
    (hinit : dictLookup init k ≠ some v) :
    classifyFile root init p (FileContent.text v) = some (k, v) := by
  rw [classifyFile_of_relOf_some root init p _ k hrel]
  cases hlk : dictLookup init k with
  | none => exact classifyRel_text_absent init k v hh hlk
  | some old =>
    have hne : old ≠ v := fun e => hinit (by rw [hlk, e])
    rw [classifyRel_text_present init k v old hh hlk, if_pos hne]

/-! ## Diff-loop lookup lemmas -/

/-! ## Path and segment lemmas -/

theorem segsPrefixOf_append (root t : List String) : segsPrefixOf root (root ++ t) = true := by
  induction root with
  | nil => rfl
  | cons a as ih =>
    show (if a = a then segsPrefixOf as (as ++ t) else false) = true
    rw [if_pos rfl]
    exact ih

theorem relOf_append (root segs : List String) (hne : segs ≠ []) :
    relOf root (root ++ segs) = some (joinSegs segs) := by
  unfold relOf
  rw [if_pos]
  · rw [List.drop_left]
  · rw [segsPrefixOf_append]
    simp only [Bool.true_and, decide_eq_true_eq, List.length_append]
    have : 0 < segs.length := List.length_pos.mpr hne
    omega

theorem joinSegs_cons_cons (s r : String) (rest : List String) :
    joinSegs (s :: r :: rest) = s ++ "/" ++ joinSegs (r :: rest) := rfl

theorem joinSegs_append (a b : List String) (ha : a ≠ []) (hb : b ≠ []) :
    joinSegs (a ++ b) = joinSegs a ++ "/" ++ joinSegs b := by
  induction a with
  | nil => cases ha rfl
  | cons x xs ih =>
    cases xs with
    | nil =>
      cases b with
      | nil => cases hb rfl
      | cons y ys => rfl
    | cons x' xs' =>
      have ih' := ih (fun e => List.noConfusion e)
      rw [List.cons_append] at ih'
      rw [List.cons_append, List.cons_append, joinSegs_cons_cons, ih', joinSegs_cons_cons]
      simp only [String.append_assoc]

theorem data_prefix_of_append (a t : String) : a.data <+: (a ++ t).data := by
  rw [String.data_append]
  exact List.prefix_append a.data t.data

theorem strStartsWith_pathStr_append (root segs : List String) :
    strStartsWith (pathStr (root ++ segs)) (pathStr root) = true := by
  unfold strStartsWith
  rw [List.isPrefixOf_iff_prefix]
  cases hs : segs with
  | nil => rw [List.append_nil]
  | cons s ss =>
    cases hr : root with
    | nil =>
      show ("/" ++ joinSegs []).data <+: _
      have h0 : ("/" ++ joinSegs []).data = "/".data := rfl
      rw [h0]
      exact data_prefix_of_append "/" (joinSegs (s :: ss))
    | cons r rs =>
      show ("/" ++ joinSegs (r :: rs)).data <+: ("/" ++ joinSegs ((r :: rs) ++ s :: ss)).data
      rw [joinSegs_append (r :: rs) (s :: ss) (fun e => List.noConfusion e)
        (fun e => List.noConfusion e)]
      rw [String.append_assoc (joinSegs (r :: rs)) "/" (joinSegs (s :: ss))]
      rw [← String.append_assoc "/" (joinSegs (r :: rs)) _]
      exact data_prefix_of_append _ _

/-! ## Seeding lemmas -/

theorem seedLoop_nil (root : List String) (fs : Fs) (init : List (String × String)) :
    seedLoop root [] fs init = Except.ok (fs, init) := rfl

theorem seedLoop_cons_pass (root : List String) (filename content : String)
    (rest : List (String × String)) (fs : Fs) (init : List (String × String))
    (hpass : strStartsWith (pathStr (resolvePath root filename)) (pathStr root) = true) :
    seedLoop root ((filename, content) :: rest) fs init =
      match writeText root fs (resolvePath root filename) content with
      | Except.error e => Except.error e
      | Except.ok fs' => seedLoop root rest fs' (dictInsert init filename content) := by
  show (if strStartsWith (pathStr (resolvePath root filename)) (pathStr root) = true then _
    else _) = _
  rw [if_pos hpass]

theorem seedLoop_cons_blocked (root : List String) (filename content : String)
    (rest : List (String × String)) (fs : Fs) (init : List (String × String))
    (hpass : strStartsWith (pathStr (resolvePath root filename)) (pathStr root) = false) :
    seedLoop root ((filename, content) :: rest) fs init = seedLoop root rest fs init := by
  show (if strStartsWith (pathStr (resolvePath root filename)) (pathStr root) = true then _
    else _) = _
  rw [if_neg (by rw [hpass]; exact Bool.false_ne_true)]

theorem seedLoop_init_not_mem (root : List String) (files : List (String × String))
    (fs : Fs) (init : List (String × String)) (fs' : Fs) (init' : List (String × String))
    (f : String) (hok : seedLoop root files fs init = Except.ok (fs', init'))
    (hnot : ∀ C, (f, C) ∉ files) :
    dictLookup init' f = dictLookup init f := by
  induction files generalizing fs init with
  | nil =>
    rw [seedLoop_nil] at hok
    obtain ⟨-, hi⟩ := Prod.mk.inj (Except.ok.inj hok)
    rw [← hi]
  | cons gd rest ih =>
    obtain ⟨g, D⟩ := gd
    have hgf : g ≠ f := fun e => hnot D (e ▸ List.mem_cons_self _ _)
    have hnot' : ∀ C, (f, C) ∉ rest := fun C hc => hnot C (List.mem_cons_of_mem _ hc)
    cases hpass : strStartsWith (pathStr (resolvePath root g)) (pathStr root) with
    | true =>
      rw [seedLoop_cons_pass root g D rest fs init hpass] at hok
      cases hw : writeText root fs (resolvePath root g) D with
      | error e => rw [hw] at hok; cases hok
      | ok fs₁ =>
        rw [hw] at hok
        rw [ih fs₁ (dictInsert init g D) hok hnot']
        exact dictLookup_dictInsert_ne init g f D (Ne.symm hgf)
    | false =>
      rw [seedLoop_cons_blocked root g D rest fs init hpass] at hok
      exact ih fs init hok hnot'

theorem seedLoop_init_mem (root : List String) (files : List (String × String))
    (fs : Fs) (init : List (String × String)) (fs' : Fs) (init' : List (String × String))
    (f C : String) (hok : seedLoop root files fs init = Except.ok (fs', init'))
    (hmem : (f, C) ∈ files) (hnodup : (files.map Prod.fst).Nodup)
    (hpass : strStartsWith (pathStr (resolvePath root f)) (pathStr root) = true) :
    dictLookup init' f = some C := by
  induction files generalizing fs init with
  | nil => cases hmem
  | cons gd rest ih =>
    obtain ⟨g, D⟩ := gd
    rw [List.map_cons, List.nodup_cons] at hnodup
    obtain ⟨hgnot, hnodup'⟩ := hnodup
    rcases List.mem_cons.mp hmem with he | hmem'
    · obtain ⟨hg, hD⟩ := Prod.mk.inj he
      subst hg; subst hD
      rw [seedLoop_cons_pass root f C rest fs init hpass] at hok
      cases hw : writeText root fs (resolvePath root f) C with
      | error e => rw [hw] at hok; cases hok
      | ok fs₁ =>
        rw [hw] at hok
        have hnot : ∀ C', (f, C') ∉ rest := fun C' hc =>
          hgnot (List.mem_map.mpr ⟨(f, C'), hc, rfl⟩)
        rw [seedLoop_init_not_mem root rest fs₁ (dictInsert init f C) fs' init' f hok hnot]
        exact dictLookup_dictInsert_self init f C
    · cases hpass' : strStartsWith (pathStr (resolvePath root g)) (pathStr root) with
      | true =>
        rw [seedLoop_cons_pass root g D rest fs init hpass'] at hok
        cases hw : writeText root fs (resolvePath root g) D with
        | error e => rw [hw] at hok; cases hok
        | ok fs₁ =>
          rw [hw] at hok
          exact ih fs₁ (dictInsert init g D) hok hmem' hnodup'
      | false =>
        rw [seedLoop_cons_blocked root g D rest fs init hpass'] at hok
        exact ih fs init hok hmem' hnodup'

/-! ## Diff-loop lookup lemmas -/

theorem diffLoop_nil (root : List String) (init acc : List (String × String)) :
    diffLoop root init [] acc = acc := rfl

theorem diffLoop_cons (root : List String) (init acc : List (String × String))
    (p : List String) (c : FileContent) (rest : Fs) :
    diffLoop root init ((p, c) :: rest) acc =
      match classifyFile root init p c with
      | some kv => diffLoop root init rest (dictInsert acc kv.1 kv.2)
      | none => diffLoop root init rest acc := rfl

theorem diffLoop_lookup_none (root : List String) (init : List (String × String))
    (fs : Fs) (acc : List (String × String)) (k : String)
    (hacc : dictLookup acc k = none)
    (hfs : ∀ p c v, (p, c) ∈ fs → classifyFile root init p c ≠ some (k, v)) :
    dictLookup (diffLoop root init fs acc) k = none := by
  induction fs generalizing acc with
  | nil => rw [diffLoop_nil]; exact hacc
  | cons pc rest ih =>
    obtain ⟨p, c⟩ := pc
    cases hcl : classifyFile root init p c with
    | none =>
      rw [diffLoop_cons, hcl]
      exact ih acc hacc fun p' c' v hmem => hfs p' c' v (List.mem_cons_of_mem _ hmem)
    | some kv =>
      obtain ⟨k', v'⟩ := kv
      have hne : k ≠ k' := by
        intro he
        exact hfs p c v' (List.mem_cons_self _ _) (he ▸ hcl)
      rw [diffLoop_cons, hcl]
      refine ih (dictInsert acc k' v') ?_
        (fun p' c' v hmem => hfs p' c' v (List.mem_cons_of_mem _ hmem))
      rw [dictLookup_dictInsert_ne _ _ _ _ hne]
      exact hacc

theorem diffLoop_lookup_some (root : List String) (init : List (String × String))
    (fs : Fs) (acc : List (String × String)) (k v : String)
    (huniq : ∀ p c v', (p, c) ∈ fs → classifyFile root init p c = some (k, v') → v' = v)
    (hsome : dictLookup acc k = some v ∨
      ∃ p c, (p, c) ∈ fs ∧ classifyFile root init p c = some (k, v)) :
    dictLookup (diffLoop root init fs acc) k = some v := by
  induction fs generalizing acc with
  | nil =>
    rcases hsome with h | ⟨p, c, hmem, _⟩
    · rw [diffLoop_nil]; exact h
    · cases hmem
  | cons pc rest ih =>
    obtain ⟨p, c⟩ := pc
    have huniq' : ∀ p' c' v', (p', c') ∈ rest → classifyFile root init p' c' = some (k, v') →
        v' = v :=
      fun p' c' v' hmem => huniq p' c' v' (List.mem_cons_of_mem _ hmem)
    cases hcl : classifyFile root init p c with
    | none =>
      rw [diffLoop_cons, hcl]
      refine ih acc huniq' ?_
      rcases hsome with h | ⟨p', c', hmem, hcl'⟩
      · exact Or.inl h
      · rcases List.mem_cons.mp hmem with he | hmem'
        · obtain ⟨hp, hc⟩ := Prod.mk.inj he
          rw [hp, hc] at hcl'
          rw [hcl'] at hcl
          cases hcl
        · exact Or.inr ⟨p', c', hmem', hcl'⟩
    | some kv =>
      obtain ⟨k', v'⟩ := kv
      rw [diffLoop_cons, hcl]
      by_cases hk : k' = k
      · subst hk
        have hv : v' = v := huniq p c v' (List.mem_cons_self _ _) hcl
        subst hv
        exact ih (dictInsert acc k' v') huniq' (Or.inl (dictLookup_dictInsert_self acc k' v'))
      · refine ih (dictInsert acc k' v') huniq' ?_
        rcases hsome with h | ⟨p', c', hmem, hcl'⟩
        · exact Or.inl (by rw [dictLookup_dictInsert_ne _ _ _ _ (fun e => hk e.symm)]; exact h)
        · rcases List.mem_cons.mp hmem with he | hmem'
          · obtain ⟨hp, hc⟩ := Prod.mk.inj he
            rw [hp, hc] at hcl'
            rw [hcl'] at hcl
            obtain ⟨hk', _⟩ := Prod.mk.inj (Option.some.inj hcl)
            exact absurd hk'.symm hk
          · exact Or.inr ⟨p', c', hmem', hcl'⟩

/-! ## Execution equation lemmas -/

theorem executeE_seed_ok (config : AgentConfig) (root : List String)
    (files : List (String × String)) (fs0 : Fs) (jsonLoads : String → Option Json)
    (proc : ProcOutcome) (ext : Fs → Fs) (fs1 : Fs) (init : List (String × String))
    (hseed : seedFiles root files fs0 = Except.ok (fs1, init)) :
    executeE config root files fs0 jsonLoads proc ext =
      match proc with
      | ProcOutcome.timedOut =>
        Except.ok (AgentResult.fromError
          ("Command timed out after " ++ toString config.timeout ++ " seconds"))
      | ProcOutcome.failed msg => Except.ok (AgentResult.fromError msg)
      | ProcOutcome.completed rc out err =>
        Except.ok
          { success := rc == 0
            response := parseResponse config.output_format jsonLoads out
            modified_files := computeDiff root (ext fs1) init
            stdout := out
            stderr := err
            return_code := rc
            error := none } := by
  unfold executeE
  rw [hseed]

theorem executeE_completed (config : AgentConfig) (root : List String)
    (files : List (String × String)) (fs0 : Fs) (jsonLoads : String → Option Json)
    (rc : Int) (out err : String) (ext : Fs → Fs) (fs1 : Fs)
    (init : List (String × String))
    (hseed : seedFiles root files fs0 = Except.ok (fs1, init)) :
    executeE config root files fs0 jsonLoads (ProcOutcome.completed rc out err) ext =
      Except.ok { success := rc == 0
                  response := parseResponse config.output_format jsonLoads out
                  modified_files := computeDiff root (ext fs1) init
                  stdout := out
                  stderr := err
                  return_code := rc
                  error := none } := by
  unfold executeE
  rw [hseed]

/-! ## Parse equation lemmas -/

theorem parseResponse_json_some (jsonLoads : String → Option Json) (out : String) (v : Json)
    (hout : out ≠ "") (hp : jsonLoads out = some v) :
    parseResponse OutputFormat.json jsonLoads out = some v := by
  unfold parseResponse
  rw [if_pos hout, if_pos rfl, hp]

theorem parseResponse_json_none (jsonLoads : String → Option Json) (out : String)
    (hout : out ≠ "") (hp : jsonLoads out = none) :
    parseResponse OutputFormat.json jsonLoads out =
      some (Json.obj [("raw_output", Json.str out)]) := by
  unfold parseResponse
  rw [if_pos hout, if_pos rfl, hp]

theorem parseResponse_not_json (fmt : OutputFormat) (jsonLoads : String → Option Json)
    (out : String) (hout : out ≠ "") (hfmt : fmt ≠ OutputFormat.json) :
    parseResponse fmt jsonLoads out = some (Json.obj [("raw_output", Json.str out)]) := by
  unfold parseResponse
  rw [if_pos hout, if_neg hfmt]

/-! # Claim theorems -/

/-- C1: the claim states that for every seed-file mapping, no file is ever
written outside the workspace root, because a path whose resolved absolute
location falls outside the root is skipped.  The code checks containment
with str(file_path).startswith(str(work_path.resolve())), a plain string
prefix test, so a traversal path that resolves to a sibling directory
whose name extends the root's name passes the check: with workspace
/tmp/ws, the seed path ../ws-evil/pwn.txt resolves to
/tmp/ws-evil/pwn.txt, is not skipped (it enters the snapshot), and the
file is written at a location that is not under the root — the security
comment in the code states the intent the check fails to implement. -/
theorem C1_traversal_escape :
    seedFiles ["tmp", "ws"] [("../ws-evil/pwn.txt", "data")] [] =
      Except.ok ([(["tmp", "ws-evil", "pwn.txt"], FileContent.text "data")],
        [("../ws-evil/pwn.txt", "data")]) ∧
    resolvePath ["tmp", "ws"] "../ws-evil/pwn.txt" = ["tmp", "ws-evil", "pwn.txt"] ∧
    segsPrefixOf ["tmp", "ws"] ["tmp", "ws-evil", "pwn.txt"] = false := by
  exact ⟨rfl, rfl, rfl⟩

/-- C2: the modified-files mapping classifies each visited regular file
against the seeding snapshot.  For a relative path string k whose every
file (there is at least one, and well-formedness makes it unique) has text
content v: if k is absent from the snapshot the mapping holds (k, v); if
the snapshot holds k with different content the mapping holds (k, v); if
the snapshot holds k with the same content, k is omitted.  A path whose
relative string starts with a dot (equivalently, whose first path segment
starts with a dot) is never reported, and a path all of whose files are
undecodable binary is silently skipped. -/
theorem C2_diff_classification (root : List String) (fs : Fs)
    (init : List (String × String)) :
    (∀ k v, (∀ p c, (p, c) ∈ fs → relOf root p = some k → c = FileContent.text v) →
      (∃ p, (p, FileContent.text v) ∈ fs ∧ relOf root p = some k) →
      strStartsWith k "." = false → dictLookup init k = none →
      dictLookup (computeDiff root fs init) k = some v) ∧
    (∀ k v old, (∀ p c, (p, c) ∈ fs → relOf root p = some k → c = FileContent.text v) →
      (∃ p, (p, FileContent.text v) ∈ fs ∧ relOf root p = some k) →
      strStartsWith k "." = false → dictLookup init k = some old → old ≠ v →
      dictLookup (computeDiff root fs init) k = some v) ∧
    (∀ k v, (∀ p c, (p, c) ∈ fs → relOf root p = some k → c = FileContent.text v) →
      dictLookup init k = some v →
      dictLookup (computeDiff root fs init) k = none) ∧
    (∀ k, strStartsWith k "." = true → dictLookup (computeDiff root fs init) k = none) ∧
    (∀ k, (∀ p c, (p, c) ∈ fs → relOf root p = some k → c = FileContent.binary) →
      dictLookup (computeDiff root fs init) k = none) := by
  refine ⟨?_, ?_, ?_, ?_, ?_⟩
  · intro k v hsole ⟨p, hmem, hrel⟩ hh hinit
    refine diffLoop_lookup_some root init fs [] k v ?_ (Or.inr ⟨p, FileContent.text v, hmem, ?_⟩)
    · intro p' c' v' hmem' hcl
      obtain ⟨hrel', -, hc', -⟩ := classifyFile_eq_some root init p' c' k v' hcl
      have := hsole p' c' hmem' hrel'
      rw [this] at hc'
      exact (FileContent.text.inj hc').symm
    · exact classifyFile_intro root init p k v hrel hh
        (fun e => by rw [hinit] at e; cases e)
  · intro k v old hsole ⟨p, hmem, hrel⟩ hh hinit hold
    refine diffLoop_lookup_some root init fs [] k v ?_ (Or.inr ⟨p, FileContent.text v, hmem, ?_⟩)
    · intro p' c' v' hmem' hcl
      obtain ⟨hrel', -, hc', -⟩ := classifyFile_eq_some root init p' c' k v' hcl
      have := hsole p' c' hmem' hrel'
      rw [this] at hc'
      exact (FileContent.text.inj hc').symm
    · exact classifyFile_intro root init p k v hrel hh
        (fun e => hold (Option.some.inj (hinit ▸ e)))
  · intro k v hsole hinit
    refine diffLoop_lookup_none root init fs [] k rfl ?_
    intro p c v' hmem hcl
    obtain ⟨hrel', -, hc', hne⟩ := classifyFile_eq_some root init p c k v' hcl
    have hv : c = FileContent.text v := hsole p c hmem hrel'
    rw [hv] at hc'
    have : v = v' := FileContent.text.inj hc'
    exact hne (this ▸ hinit)
  · intro k hh
    refine diffLoop_lookup_none root init fs [] k rfl ?_
    intro p c v hmem hcl
    obtain ⟨-, hh', -, -⟩ := classifyFile_eq_some root init p c k v hcl
    rw [hh] at hh'
    cases hh'
  · intro k hbin
    refine diffLoop_lookup_none root init fs [] k rfl ?_
    intro p c v hmem hcl
    obtain ⟨hrel', -, hc', -⟩ := classifyFile_eq_some root init p c k v hcl
    have := hbin p c hmem hrel'
    rw [this] at hc'
    cases hc'

/-- C2 witness: a concrete workspace with an added file, a changed file,
an unchanged file, a hidden file and a binary file. -/
theorem C2_diff_classification_witness :
    dictLookup (computeDiff ["ws"]
      [(["ws", "new.txt"], FileContent.text "n"), (["ws", "chg.txt"], FileContent.text "y"),
       (["ws", "same.txt"], FileContent.text "s"), (["ws", ".h"], FileContent.text "z"),
       (["ws", "bin"], FileContent.binary)]
      [("chg.txt", "x"), ("same.txt", "s")]) "new.txt" = some "n" ∧
    dictLookup (computeDiff ["ws"]
      [(["ws", "new.txt"], FileContent.text "n"), (["ws", "chg.txt"], FileContent.text "y"),
       (["ws", "same.txt"], FileContent.text "s"), (["ws", ".h"], FileContent.text "z"),
       (["ws", "bin"], FileContent.binary)]
      [("chg.txt", "x"), ("same.txt", "s")]) "chg.txt" = some "y" ∧
    dictLookup (computeDiff ["ws"]
      [(["ws", "new.txt"], FileContent.text "n"), (["ws", "chg.txt"], FileContent.text "y"),
       (["ws", "same.txt"], FileContent.text "s"), (["ws", ".h"], FileContent.text "z"),
       (["ws", "bin"], FileContent.binary)]
      [("chg.txt", "x"), ("same.txt", "s")]) "same.txt" = none ∧
    dictLookup (computeDiff ["ws"]
      [(["ws", "new.txt"], FileContent.text "n"), (["ws", "chg.txt"], FileContent.text "y"),
       (["ws", "same.txt"], FileContent.text "s"), (["ws", ".h"], FileContent.text "z"),
       (["ws", "bin"], FileContent.binary)]
      [("chg.txt", "x"), ("same.txt", "s")]) ".h" = none ∧
    dictLookup (computeDiff ["ws"]
      [(["ws", "new.txt"], FileContent.text "n"), (["ws", "chg.txt"], FileContent.text "y"),
       (["ws", "same.txt"], FileContent.text "s"), (["ws", ".h"], FileContent.text "z"),
       (["ws", "bin"], FileContent.binary)]
      [("chg.txt", "x"), ("same.txt", "s")]) "bin" = none := by
  have h := C2_diff_classification ["ws"]
    [(["ws", "new.txt"], FileContent.text "n"), (["ws", "chg.txt"], FileContent.text "y"),
     (["ws", "same.txt"], FileContent.text "s"), (["ws", ".h"], FileContent.text "z"),
     (["ws", "bin"], FileContent.binary)]
    [("chg.txt", "x"), ("same.txt", "s")]
  refine ⟨h.1 "new.txt" "n" ?_ ⟨["ws", "new.txt"], by decide, by decide⟩
      (by decide) (by decide),
    h.2.1 "chg.txt" "y" "x" ?_ ⟨["ws", "chg.txt"], by decide, by decide⟩
      (by decide) (by decide) (by decide),
    h.2.2.1 "same.txt" "s" ?_ (by decide),
    h.2.2.2.1 ".h" (by decide),
    h.2.2.2.2 "bin" ?_⟩ <;>
    (intro p c hmem
     simp only [List.mem_cons, List.not_mem_nil, or_false] at hmem
     rcases hmem with h' | h' | h' | h' | h' <;>
       (obtain ⟨rfl, rfl⟩ := Prod.mk.inj h'; decide))

/-- C3, counterexample: the claim states that a seeded file that the
external process never rewrites does not appear in the modified-files
mapping.  Seeding the mapping with key ./a.txt and content x writes the
file a.txt, and with the workspace left untouched the diff still reports
a.txt as added with content x: the snapshot is keyed by the raw string
./a.txt while the walk produces the normalized string a.txt, so the
seeded, never-rewritten file appears in the mapping. -/
theorem C3_roundtrip_counterexample :
    seedFiles ["ws"] [("./a.txt", "x")] [] =
      Except.ok ([(["ws", "a.txt"], FileContent.text "x")], [("./a.txt", "x")]) ∧
    dictLookup (computeDiff ["ws"] [(["ws", "a.txt"], FileContent.text "x")]
      [("./a.txt", "x")]) "a.txt" = some "x" :=
  ⟨rfl, rfl⟩

/-- C3, amended: round-trip through seeding and diffing, for canonical
seed paths.  A file seeded under a path string f that resolves to the
root extended by f's own segments (no dot, dot-dot or empty segments),
whose content is never rewritten by the external process and which no
other walked path aliases, does not appear in the modified-files mapping;
and a text file at a canonical, non-hidden, unaliased path g absent from
the seed set that exists in the workspace after execution appears in the
mapping as added, with its content. -/
theorem C3_roundtrip (root : List String) (files : List (String × String))
    (fs1 : Fs) (init : List (String × String)) (ext : Fs → Fs)
    (f C : String) (segf : List String) (g D : String) (segg : List String)
    (hseed : seedFiles root files [] = Except.ok (fs1, init))
    (hnodup : (files.map Prod.fst).Nodup)
    (hfmem : (f, C) ∈ files)
    (hfres : resolvePath root f = root ++ segf)
    (hfkept : ∀ c, (root ++ segf, c) ∈ ext fs1 → c = FileContent.text C)
    (hfalias : ∀ p c, (p, c) ∈ ext fs1 → relOf root p = some f → p = root ++ segf)
    (hgabs : ∀ D', (g, D') ∉ files)
    (hgseg : segg ≠ []) (hgjoin : joinSegs segg = g)
    (hgmem : (root ++ segg, FileContent.text D) ∈ ext fs1)
    (hgalias : ∀ p c, (p, c) ∈ ext fs1 → relOf root p = some g →
      p = root ++ segg ∧ c = FileContent.text D)
    (hghidden : strStartsWith g "." = false) :
    dictLookup (computeDiff root (ext fs1) init) f = none ∧
    dictLookup (computeDiff root (ext fs1) init) g = some D := by
  have hseed' : seedLoop root files [] [] = Except.ok (fs1, init) := hseed
  have hpass : strStartsWith (pathStr (resolvePath root f)) (pathStr root) = true := by
    rw [hfres]
    exact strStartsWith_pathStr_append root segf
  have hinitf : dictLookup init f = some C :=
    seedLoop_init_mem root files [] [] fs1 init f C hseed' hfmem hnodup hpass
  have hinitg : dictLookup init g = none := by
    rw [seedLoop_init_not_mem root files [] [] fs1 init g hseed' (fun D' => hgabs D')]
    rfl
  constructor
  · refine diffLoop_lookup_none root init (ext fs1) [] f rfl ?_
    intro p c v hmem hcl
    obtain ⟨hrel', -, hc', hne⟩ := classifyFile_eq_some root init p c f v hcl
    have hp : p = root ++ segf := hfalias p c hmem hrel'
    have hcC : c = FileContent.text C := hfkept c (hp ▸ hmem)
    rw [hcC] at hc'
    have hvC : C = v := FileContent.text.inj hc'
    exact hne (hvC ▸ hinitf)
  · refine diffLoop_lookup_some root init (ext fs1) [] g D ?_
      (Or.inr ⟨root ++ segg, FileContent.text D, hgmem, ?_⟩)
    · intro p c v hmem hcl
      obtain ⟨hrel', -, hc', -⟩ := classifyFile_eq_some root init p c g v hcl
      obtain ⟨-, hcD⟩ := hgalias p c hmem hrel'
      rw [hcD] at hc'
      exact (FileContent.text.inj hc').symm
    · refine classifyFile_intro root init (root ++ segg) g D ?_ hghidden ?_
      · rw [relOf_append root segg hgseg, hgjoin]
      · rw [hinitg]
        exact fun e => by cases e

/-- C3 witness: a concrete run seeding a.txt, after which the external
process adds b.txt and leaves a.txt untouched. -/
theorem C3_roundtrip_witness :
    dictLookup (computeDiff ["ws"]
      ((fun _ => [(["ws", "a.txt"], FileContent.text "x"),
        (["ws", "b.txt"], FileContent.text "nb")]) [(["ws", "a.txt"], FileContent.text "x")])
      [("a.txt", "x")]) "a.txt" = none ∧
    dictLookup (computeDiff ["ws"]
      ((fun _ => [(["ws", "a.txt"], FileContent.text "x"),
        (["ws", "b.txt"], FileContent.text "nb")]) [(["ws", "a.txt"], FileContent.text "x")])
      [("a.txt", "x")]) "b.txt" = some "nb" := by
  refine C3_roundtrip ["ws"] [("a.txt", "x")] [(["ws", "a.txt"], FileContent.text "x")]
    [("a.txt", "x")]
    (fun _ => [(["ws", "a.txt"], FileContent.text "x"), (["ws", "b.txt"], FileContent.text "nb")])
    "a.txt" "x" ["a.txt"] "b.txt" "nb" ["b.txt"] rfl (by decide) (by decide) (by decide)
    ?_ ?_ ?_ (by decide) (by decide) (by decide) ?_ (by decide)
  · intro c hmem
    simp only [List.mem_cons, List.not_mem_nil, or_false] at hmem
    rcases hmem with h | h <;> (obtain ⟨h1, rfl⟩ := Prod.mk.inj h) <;> revert h1 <;> decide
  · intro p c hmem
    simp only [List.mem_cons, List.not_mem_nil, or_false] at hmem
    rcases hmem with h | h <;> (obtain ⟨rfl, rfl⟩ := Prod.mk.inj h) <;> decide
  · intro D' hmem
    simp only [List.mem_cons, List.not_mem_nil, or_false] at hmem
    obtain ⟨h1, -⟩ := Prod.mk.inj hmem
    revert h1
    decide
  · intro p c hmem
    simp only [List.mem_cons, List.not_mem_nil, or_false] at hmem
    rcases hmem with h | h <;> (obtain ⟨rfl, rfl⟩ := Prod.mk.inj h) <;> decide

/-- C4, counterexample: with timeout 5 the outcome's error message is the
string "Command timed out after 5 seconds", not the string
"timed out after 5" the claim gives for the outcome. -/
theorem C4_timeout_message_counterexample :
    executeE { timeout := 5 } ["ws"] [] [] (fun _ => none) ProcOutcome.timedOut id =
      Except.ok (AgentResult.fromError "Command timed out after 5 seconds") ∧
    (AgentResult.fromError "Command timed out after 5 seconds").error ≠
      some "timed out after 5" := by
  refine ⟨rfl, by decide⟩

/-- C4, amended: when the external process exceeds the configured timeout
T, run returns (does not raise) an outcome with success false, return code
-1, empty stdout and stderr, no response, no modified files, and the error
message "Command timed out after T seconds" (which describes a timeout
after T). -/
theorem C4_timeout_outcome (config : AgentConfig) (root : List String)
    (files : List (String × String)) (fs0 : Fs) (jsonLoads : String → Option Json)
    (ext : Fs → Fs) (fs1 : Fs) (init : List (String × String))
    (hseed : seedFiles root files fs0 = Except.ok (fs1, init)) :
    executeE config root files fs0 jsonLoads ProcOutcome.timedOut ext =
      Except.ok { success := false
                  response := none
                  modified_files := []
                  stdout := ""
                  stderr := ""
                  return_code := -1
                  error := some ("Command timed out after " ++ toString config.timeout
                    ++ " seconds") } := by
  rw [executeE_seed_ok config root files fs0 jsonLoads ProcOutcome.timedOut ext fs1 init hseed]
  rfl

/-- C4 witness: a concrete timed-out execution with timeout 7 and one seed
file. -/
theorem C4_timeout_outcome_witness :
    executeE { timeout := 7 } ["ws"] [("a.txt", "hey")] [] (fun _ => none)
      ProcOutcome.timedOut id =
      Except.ok { success := false
                  response := none
                  modified_files := []
                  stdout := ""
                  stderr := ""
                  return_code := -1
                  error := some ("Command timed out after " ++ toString (7 : Nat)
                    ++ " seconds") } :=
  C4_timeout_outcome { timeout := 7 } ["ws"] [("a.txt", "hey")] [] (fun _ => none) id
    [(["ws", "a.txt"], FileContent.text "hey")] [("a.txt", "hey")] rfl

/-- C5, counterexample: the claim states that run never raises once the
agent is constructed, converting every failure during seeding into an
outcome value; but the seeding loop is not guarded, and seeding the
mapping a -> x, a/b -> y makes mkdir raise FileExistsError (the parent of
a/b exists as the just-seeded regular file a), which propagates out of
run. -/
theorem C5_seeding_raises_counterexample :
    executeE {} ["tmp", "ws"] [("a", "x"), ("a/b", "y")] [] (fun _ => none)
      (ProcOutcome.completed 0 "" "") id = Except.error "FileExistsError" := by
  rfl

/-- C5, amended: once seeding has succeeded, every later failure mode of
the execution (timeout, failed invocation of the binary, unparseable
stdout, undecodable files met by the diff walk) is converted into an
outcome value and run returns an AgentResult; only an OS error raised
while writing seed files escapes. -/
theorem C5_no_raise_after_seeding (config : AgentConfig) (root : List String)
    (files : List (String × String)) (fs0 : Fs) (jsonLoads : String → Option Json)
    (proc : ProcOutcome) (ext : Fs → Fs) (fs1 : Fs) (init : List (String × String))
    (hseed : seedFiles root files fs0 = Except.ok (fs1, init)) :
    ∃ r : AgentResult, executeE config root files fs0 jsonLoads proc ext = Except.ok r := by
  rw [executeE_seed_ok config root files fs0 jsonLoads proc ext fs1 init hseed]
  cases proc with
  | timedOut => exact ⟨_, rfl⟩
  | failed msg => exact ⟨_, rfl⟩
  | completed rc out err => exact ⟨_, rfl⟩

/-- C5 witness: a concrete failed invocation still yields an outcome
value. -/
theorem C5_no_raise_after_seeding_witness :
    ∃ r : AgentResult,
      executeE {} ["ws"] [("a.txt", "hey")] [] (fun _ => none)
        (ProcOutcome.failed "No such file or directory: gemini") id = Except.ok r :=
  C5_no_raise_after_seeding {} ["ws"] [("a.txt", "hey")] [] (fun _ => none)
    (ProcOutcome.failed "No such file or directory: gemini") id
    [(["ws", "a.txt"], FileContent.text "hey")] [("a.txt", "hey")] rfl

/-- C9: in service mode, a job whose execution keeps raising is retried
up to the fixed retry ceiling of 2 with a fixed backoff delay of 30
time-units (the first two executions schedule a retry after 30), and once
the ceiling is exhausted — on the third execution, index 2 — self.retry
re-raises the original exception, so the task reaches the terminal
FAILURE status with that exception as the final recorded outcome,
absorbed at the worker boundary rather than re-raised out of the
worker. -/
theorem C9_retry_exhaustion (attempts : Nat → Except String TaskPayload)
    (e : Nat → String) (hfail : ∀ k, attempts k = Except.error (e k)) :
    runGeminiTaskStep 0 (attempts 0) = TaskStep.retryScheduled defaultRetryDelay ∧
    runGeminiTaskStep 1 (attempts 1) = TaskStep.retryScheduled defaultRetryDelay ∧
    runJob attempts = some (2, Except.error (e 2)) ∧
    jobFinalStatus attempts = TaskStatus.failure := by
  have h0 : runGeminiTaskStep 0 (attempts 0) = TaskStep.retryScheduled defaultRetryDelay := by
    rw [hfail 0]; rfl
  have h1 : runGeminiTaskStep 1 (attempts 1) = TaskStep.retryScheduled defaultRetryDelay := by
    rw [hfail 1]; rfl
  have h2 : runGeminiTaskStep 2 (attempts 2) = TaskStep.raisedStep (e 2) := by
    rw [hfail 2]; rfl
  have s1 : runJob attempts =
      (match runGeminiTaskStep 0 (attempts 0) with
       | TaskStep.completedStep p => some (0, Except.ok p)
       | TaskStep.raisedStep e' => some (0, Except.error e')
       | TaskStep.retryScheduled d => runJobFrom attempts 2 1) := rfl
  have s1' : runJob attempts = runJobFrom attempts 2 1 := by rw [s1, h0]
  have s2 : runJobFrom attempts 2 1 =
      (match runGeminiTaskStep 1 (attempts 1) with
       | TaskStep.completedStep p => some (1, Except.ok p)
       | TaskStep.raisedStep e' => some (1, Except.error e')
       | TaskStep.retryScheduled d => runJobFrom attempts 1 2) := rfl
  have s2' : runJobFrom attempts 2 1 = runJobFrom attempts 1 2 := by rw [s2, h1]
  have s3 : runJobFrom attempts 1 2 =
      (match runGeminiTaskStep 2 (attempts 2) with
       | TaskStep.completedStep p => some (2, Except.ok p)
       | TaskStep.raisedStep e' => some (2, Except.error e')
       | TaskStep.retryScheduled d => runJobFrom attempts 0 3) := rfl
  have s3' : runJobFrom attempts 1 2 = some (2, Except.error (e 2)) := by rw [s3, h2]
  have hjob : runJob attempts = some (2, Except.error (e 2)) :=
    s1'.trans (s2'.trans s3')
  refine ⟨h0, h1, hjob, ?_⟩
  unfold jobFinalStatus
  rw [hjob]

/-- C9 witness: a concrete job whose three executions all raise. -/
theorem C9_retry_exhaustion_witness :
    runGeminiTaskStep 0 ((fun _ => Except.error "down") 0) =
      TaskStep.retryScheduled defaultRetryDelay ∧
    runGeminiTaskStep 1 ((fun _ => Except.error "down") 1) =
      TaskStep.retryScheduled defaultRetryDelay ∧
    runJob (fun _ => Except.error "down") =
      some (2, Except.error ((fun _ => "down") 2)) ∧
    jobFinalStatus (fun _ => Except.error "down") = TaskStatus.failure :=
  C9_retry_exhaustion (fun _ => Except.error "down") (fun _ => "down") (fun _ => rfl)

/-- C6, counterexample: the claim states that for both structured output
formats (JSON and STREAM_JSON) a parseable stdout yields the parsed
structure as the response; but _execute only parses for the JSON format,
so with output format STREAM_JSON and stdout "\x7b\x7d" that the parser
maps to the empty object, the response is still the raw-output wrapper,
not the parsed structure. -/
theorem C6_stream_json_counterexample :
    executeE { output_format := OutputFormat.stream_json } ["ws"] [] []
      (fun s => if s = "{}" then some (Json.obj []) else none)
      (ProcOutcome.completed 0 "{}" "") id =
      Except.ok { success := true
                  response := some (Json.obj [("raw_output", Json.str "{}")])
                  modified_files := []
                  stdout := "{}"
                  stderr := ""
                  return_code := 0
                  error := none } ∧
    (fun s => if s = "{}" then some (Json.obj []) else none) "{}" = some (Json.obj []) ∧
    Json.obj [("raw_output", Json.str "{}")] ≠ Json.obj [] := by
  refine ⟨rfl, rfl, ?_⟩
  intro h
  injection h with h'
  cases h'

/-- C6, amended: for every completed execution with non-empty stdout, when
the requested output format is JSON the response is the parsed stdout if
parsing succeeds and the raw stdout wrapped under the single key
raw_output if parsing fails; when the requested format is STREAM_JSON the
stdout is never parsed and the response is always the raw-output wrapper;
in every case the operation completes normally with an outcome value. -/
theorem C6_response_parsing (config : AgentConfig) (root : List String)
    (files : List (String × String)) (fs0 : Fs) (jsonLoads : String → Option Json)
    (rc : Int) (out err : String) (ext : Fs → Fs) (fs1 : Fs)
    (init : List (String × String)) (v : Json)
    (hseed : seedFiles root files fs0 = Except.ok (fs1, init)) (hout : out ≠ "") :
    (config.output_format = OutputFormat.json → jsonLoads out = some v →
      executeE config root files fs0 jsonLoads (ProcOutcome.completed rc out err) ext =
        Except.ok { success := rc == 0
                    response := some v
                    modified_files := computeDiff root (ext fs1) init
                    stdout := out
                    stderr := err
                    return_code := rc
                    error := none }) ∧
    (config.output_format = OutputFormat.json → jsonLoads out = none →
      executeE config root files fs0 jsonLoads (ProcOutcome.completed rc out err) ext =
        Except.ok { success := rc == 0
                    response := some (Json.obj [("raw_output", Json.str out)])
                    modified_files := computeDiff root (ext fs1) init
                    stdout := out
                    stderr := err
                    return_code := rc
                    error := none }) ∧
    (config.output_format = OutputFormat.stream_json →
      executeE config root files fs0 jsonLoads (ProcOutcome.completed rc out err) ext =
        Except.ok { success := rc == 0
                    response := some (Json.obj [("raw_output", Json.str out)])
                    modified_files := computeDiff root (ext fs1) init
                    stdout := out
                    stderr := err
                    return_code := rc
                    error := none }) := by
  refine ⟨?_, ?_, ?_⟩
  · intro hfmt hp
    rw [executeE_completed config root files fs0 jsonLoads rc out err ext fs1 init hseed, hfmt,
      parseResponse_json_some jsonLoads out v hout hp]
  · intro hfmt hp
    rw [executeE_completed config root files fs0 jsonLoads rc out err ext fs1 init hseed, hfmt,
      parseResponse_json_none jsonLoads out hout hp]
  · intro hfmt
    rw [executeE_completed config root files fs0 jsonLoads rc out err ext fs1 init hseed, hfmt,
      parseResponse_not_json OutputFormat.stream_json jsonLoads out hout
        (fun h => OutputFormat.noConfusion h)]

/-- C6 witness: three concrete executions, one per branch. -/
theorem C6_response_parsing_witness :
    executeE {} ["ws"] [] [] (fun s => if s = "[1]" then some (Json.arr [Json.num 1]) else none)
      (ProcOutcome.completed 0 "[1]" "") id =
      Except.ok { success := (0 : Int) == 0
                  response := some (Json.arr [Json.num 1])
                  modified_files := computeDiff ["ws"] (id ([] : Fs)) []
                  stdout := "[1]"
                  stderr := ""
                  return_code := 0
                  error := none } ∧
    executeE {} ["ws"] [] [] (fun _ => none) (ProcOutcome.completed 2 "oops" "") id =
      Except.ok { success := (2 : Int) == 0
                  response := some (Json.obj [("raw_output", Json.str "oops")])
                  modified_files := computeDiff ["ws"] (id ([] : Fs)) []
                  stdout := "oops"
                  stderr := ""
                  return_code := 2
                  error := none } ∧
    executeE { output_format := OutputFormat.stream_json } ["ws"] [] []
      (fun s => if s = "[1]" then some (Json.arr [Json.num 1]) else none)
      (ProcOutcome.completed 0 "[1]" "") id =
      Except.ok { success := (0 : Int) == 0
                  response := some (Json.obj [("raw_output", Json.str "[1]")])
                  modified_files := computeDiff ["ws"] (id ([] : Fs)) []
                  stdout := "[1]"
                  stderr := ""
                  return_code := 0
                  error := none } :=
  ⟨(C6_response_parsing {} ["ws"] [] []
      (fun s => if s = "[1]" then some (Json.arr [Json.num 1]) else none) 0 "[1]" "" id [] []
      (Json.arr [Json.num 1]) rfl (by decide)).1 rfl rfl,
   (C6_response_parsing {} ["ws"] [] [] (fun _ => none) 2 "oops" "" id [] []
      Json.null rfl (by decide)).2.1 rfl rfl,
   (C6_response_parsing { output_format := OutputFormat.stream_json } ["ws"] [] []
      (fun s => if s = "[1]" then some (Json.arr [Json.num 1]) else none) 0 "[1]" "" id [] []
      Json.null rfl (by decide)).2.2 rfl⟩

/-- C7: for every completed external-process execution the outcome's
success flag is true exactly when the exit code is 0, independent of
whether stdout parsing succeeded; and an execution exiting 0 whose
requested format is JSON with parseable non-empty stdout yields success
true and the parsed structure as the response. -/
theorem C7_success_iff_exit_zero (config : AgentConfig) (root : List String)
    (files : List (String × String)) (fs0 : Fs) (jsonLoads : String → Option Json)
    (rc : Int) (out err : String) (ext : Fs → Fs) (fs1 : Fs)
    (init : List (String × String)) (r : AgentResult) (v : Json)
    (hseed : seedFiles root files fs0 = Except.ok (fs1, init))
    (hrun : executeE config root files fs0 jsonLoads (ProcOutcome.completed rc out err) ext =
      Except.ok r) :
    (r.success = true ↔ rc = 0) ∧
    (rc = 0 → config.output_format = OutputFormat.json → out ≠ "" → jsonLoads out = some v →
      r.success = true ∧ r.response = some v) := by
  rw [executeE_completed config root files fs0 jsonLoads rc out err ext fs1 init hseed] at hrun
  have hr : ({ success := rc == 0
               response := parseResponse config.output_format jsonLoads out
               modified_files := computeDiff root (ext fs1) init
               stdout := out
               stderr := err
               return_code := rc
               error := none } : AgentResult) = r := Except.ok.inj hrun
  rw [← hr]
  constructor
  · show ((rc == 0) = true ↔ rc = 0)
    exact beq_iff_eq
  · intro h0 hfmt hout hp
    refine ⟨?_, ?_⟩
    · show (rc == 0) = true
      rw [h0]
      rfl
    · show parseResponse config.output_format jsonLoads out = some v
      rw [hfmt]
      exact parseResponse_json_some jsonLoads out v hout hp

/-- C7 witness: a concrete execution exiting 0 with parseable JSON
stdout. -/
theorem C7_success_iff_exit_zero_witness :
    (({ success := true
        response := some (Json.arr [])
        modified_files := []
        stdout := "[]"
        stderr := ""
        return_code := 0
        error := none } : AgentResult).success = true ↔ (0 : Int) = 0) ∧
    (({ success := true
        response := some (Json.arr [])
        modified_files := []
        stdout := "[]"
        stderr := ""
        return_code := 0
        error := none } : AgentResult).success = true ∧
      ({ success := true
         response := some (Json.arr [])
         modified_files := []
         stdout := "[]"
         stderr := ""
         return_code := 0
         error := none } : AgentResult).response = some (Json.arr [])) :=
  have h := C7_success_iff_exit_zero {} ["ws"] [] []
    (fun s => if s = "[]" then some (Json.arr []) else none) 0 "[]" "" id [] []
    { success := true
      response := some (Json.arr [])
      modified_files := []
      stdout := "[]"
      stderr := ""
      return_code := 0
      error := none } (Json.arr []) rfl rfl
  ⟨h.1, h.2 rfl rfl (by decide) rfl⟩

theorem ite_append_else {α : Type} (c : Prop) [Decidable c] (l x : List α) :
    (if c then l ++ x else l) = l ++ (if c then x else []) := by
  by_cases h : c
  · rw [if_pos h, if_pos h]
  · rw [if_neg h, if_neg h, List.append_nil]

theorem ite_append_append {α : Type} (c : Prop) [Decidable c] (l x y : List α) :
    (if c then l ++ x else l ++ y) = l ++ (if c then x else y) := by
  by_cases h : c
  · rw [if_pos h, if_pos h]
  · rw [if_neg h, if_neg h]

theorem cons_ite_list {α : Type} (c : Prop) [Decidable c] (a : α) (x y : List α) :
    (if c then a :: x else a :: y) = a :: (if c then x else y) := by
  by_cases h : c
  · rw [if_pos h, if_pos h]
  · rw [if_neg h, if_neg h]

theorem ite_ne_nil_flatten (l : List String) (f : String → List String) :
    (if l ≠ [] then (l.map f).flatten else []) = (l.map f).flatten := by
  by_cases h : l = []
  · rw [if_neg (fun hn => hn h), h]
    rfl
  · rw [if_pos h]

theorem approval_ite_eq_match (m : ApprovalMode) :
    (if m = ApprovalMode.yolo then ["-y"]
     else if m = ApprovalMode.default ∨ m = ApprovalMode.auto_edit then
       ["--approval-mode", m.value]
     else []) =
    (match m with
     | ApprovalMode.yolo => ["-y"]
     | m' => ["--approval-mode", m'.value]) := by
  cases m <;> rfl

/-- C8: for every request the built argument list has exactly the claimed
order and shape: binary name, then the output-format flag/value pair
first; the model pair only if the model is non-empty; for approval mode,
YOLO contributes the single flag -y while DEFAULT and AUTO_EDIT contribute
the pair --approval-mode value; the sandbox flag only if sandbox is true;
each of MCP servers, allowed tools and extensions, if non-empty, one flag
followed by all its values; one --include-directories pair per directory;
a present resume token (a non-empty one, matching Python truthiness) one
--resume pair; and the prompt always last. -/
theorem C8_command_shape (config : AgentConfig) (prompt : String)
    (mcp_servers allowed_tools extensions include_directories : List String)
    (resume_session : Option String) (hres : resume_session ≠ some "") :
    buildCommand config prompt mcp_servers allowed_tools extensions include_directories
      resume_session =
    commandSpec config prompt mcp_servers allowed_tools extensions include_directories
      resume_session := by
  obtain ⟨api_key, model, timeout, approval_mode, sandbox, output_format⟩ := config
  cases resume_session with
  | none =>
    simp only [buildCommand, commandSpec, List.append_assoc, ite_append_append,
      ite_append_else, approval_ite_eq_match, List.singleton_append, List.nil_append,
      ite_true, eq_self_iff_true, ite_ne_nil_flatten, cons_ite_list]
  | some r =>
    have hr : r ≠ "" := fun e => hres (by rw [e])
    simp only [buildCommand, commandSpec, List.append_assoc, ite_append_append,
      ite_append_else, approval_ite_eq_match, List.singleton_append, List.nil_append,
      ite_true, eq_self_iff_true, ite_ne_nil_flatten, cons_ite_list, ne_eq, hr,
      not_false_eq_true]

/-- C8 witness: a request exercising every clause. -/
theorem C8_command_shape_witness :
    (some "latest" ≠ some "") ∧
    buildCommand
      { model := "gemini-2.5-flash"
        approval_mode := ApprovalMode.default
        sandbox := true
        output_format := OutputFormat.text } "go" ["s1", "s2"] ["t"] ["e1", "e2"]
      ["d1", "d2"] (some "latest") =
    commandSpec
      { model := "gemini-2.5-flash"
        approval_mode := ApprovalMode.default
        sandbox := true
        output_format := OutputFormat.text } "go" ["s1", "s2"] ["t"] ["e1", "e2"]
      ["d1", "d2"] (some "latest") :=
  ⟨by decide,
   C8_command_shape
     { model := "gemini-2.5-flash"
       approval_mode := ApprovalMode.default
       sandbox := true
       output_format := OutputFormat.text } "go" ["s1", "s2"] ["t"] ["e1", "e2"]
     ["d1", "d2"] (some "latest") (by decide)⟩

/-- C10: a task-creation request with a non-empty context mapping hands
the queued job the submitted prompt followed by a separator and the JSON
serialization of the context; with no context the prompt is passed
unchanged. -/
theorem C10_context_prompt (prompt : String) (ctx : List (String × Json))
    (jsonDumps : List (String × Json) → String) (hne : ctx ≠ []) :
    buildFullPrompt prompt (some ctx) jsonDumps =
      prompt ++ "\n\n---\n\nContext:\n" ++ jsonDumps ctx ∧
    buildFullPrompt prompt none jsonDumps = prompt := by
  constructor
  · show (if ctx.isEmpty = true then prompt
      else prompt ++ "\n\n---\n\nContext:\n" ++ jsonDumps ctx) = _
    rw [if_neg (fun h => hne (List.isEmpty_iff.mp h))]
  · rfl

/-- C10 witness: a concrete request with a one-entry context. -/
theorem C10_context_prompt_witness :
    buildFullPrompt "fix it" (some [("k", Json.str "v")]) (fun _ => "SERIALIZED") =
      "fix it" ++ "\n\n---\n\nContext:\n" ++ (fun _ => "SERIALIZED") [("k", Json.str "v")] ∧
    buildFullPrompt "fix it" none (fun _ => "SERIALIZED") = "fix it" :=
  C10_context_prompt "fix it" [("k", Json.str "v")] (fun _ => "SERIALIZED")
    (fun h => List.noConfusion h)

end GeminiAgent
